import Mathlib

/-
Verification of the bf6-stats-pipeline repository.

The development shallowly embeds the three source modules:
  * api.py      : retry/backoff request loop and response shaping
  * pipeline.py : config loading and the resolve/fetch pipeline
  * storage.py  : flattening and the CSV / SQLite writers

Remote I/O is made explicit: every place the Python code performs an HTTP
request, the Lean model consults an oracle describing the outcome of that
request, and every place the code sleeps, the model records the sleep
duration.  Python dicts are modelled as ordered association lists, exactly
as insertion-ordered dicts behave.
-/

/-- Json values as produced by response parsing.  Objects and the dicts
derived from them are ordered association lists, mirroring Python dict
insertion order.  Numbers are modelled as integers, which covers every
value the claims exercise. -/
inductive Json where
  | null : Json
  | bool (b : Bool) : Json
  | num (n : Int) : Json
  | str (s : String) : Json
  | arr (xs : List Json) : Json
  | obj (fields : List (String × Json)) : Json

mutual

/-- Decidable equality on Json values. -/
def jsonDecEq : (a b : Json) → Decidable (a = b)
  | .null, .null => isTrue rfl
  | .bool x, .bool y =>
    match decEq x y with
    | isTrue h => isTrue (by rw [h])
    | isFalse h => isFalse (fun hh => h (Json.bool.inj hh))
  | .num x, .num y =>
    match decEq x y with
    | isTrue h => isTrue (by rw [h])
    | isFalse h => isFalse (fun hh => h (Json.num.inj hh))
  | .str x, .str y =>
    match decEq x y with
    | isTrue h => isTrue (by rw [h])
    | isFalse h => isFalse (fun hh => h (Json.str.inj hh))
  | .arr xs, .arr ys =>
    match jsonListDecEq xs ys with
    | isTrue h => isTrue (by rw [h])
    | isFalse h => isFalse (fun hh => h (Json.arr.inj hh))
  | .obj fs, .obj gs =>
    match jsonFieldsDecEq fs gs with
    | isTrue h => isTrue (by rw [h])
    | isFalse h => isFalse (fun hh => h (Json.obj.inj hh))
  | .null, .bool _ | .null, .num _ | .null, .str _ | .null, .arr _
  | .null, .obj _ | .bool _, .null | .bool _, .num _ | .bool _, .str _
  | .bool _, .arr _ | .bool _, .obj _ | .num _, .null | .num _, .bool _
  | .num _, .str _ | .num _, .arr _ | .num _, .obj _ | .str _, .null
  | .str _, .bool _ | .str _, .num _ | .str _, .arr _ | .str _, .obj _
  | .arr _, .null | .arr _, .bool _ | .arr _, .num _ | .arr _, .str _
  | .arr _, .obj _ | .obj _, .null | .obj _, .bool _ | .obj _, .num _
  | .obj _, .str _ | .obj _, .arr _ => isFalse (fun h => Json.noConfusion h)

/-- Decidable equality on lists of Json values. -/
def jsonListDecEq : (a b : List Json) → Decidable (a = b)
  | [], [] => isTrue rfl
  | [], _ :: _ => isFalse (fun h => List.noConfusion h)
  | _ :: _, [] => isFalse (fun h => List.noConfusion h)
  | x :: xs, y :: ys =>
    match jsonDecEq x y with
    | isFalse h => isFalse (fun hh => h (List.cons.inj hh).1)
    | isTrue h1 =>
      match jsonListDecEq xs ys with
      | isTrue h2 => isTrue (by rw [h1, h2])
      | isFalse h2 => isFalse (fun hh => h2 (List.cons.inj hh).2)

/-- Decidable equality on Json object field lists. -/
def jsonFieldsDecEq : (a b : List (String × Json)) → Decidable (a = b)
  | [], [] => isTrue rfl
  | [], _ :: _ => isFalse (fun h => List.noConfusion h)
  | _ :: _, [] => isFalse (fun h => List.noConfusion h)
  | (k, v) :: xs, (k', v') :: ys =>
    match decEq k k' with
    | isFalse h =>
      isFalse (fun hh => h (congrArg Prod.fst (List.cons.inj hh).1))
    | isTrue hk =>
      match jsonDecEq v v' with
      | isFalse h =>
        isFalse (fun hh => h (congrArg Prod.snd (List.cons.inj hh).1))
      | isTrue hv =>
        match jsonFieldsDecEq xs ys with
        | isTrue h2 => isTrue (by rw [hk, hv, h2])
        | isFalse h2 => isFalse (fun hh => h2 (List.cons.inj hh).2)

end

instance : DecidableEq Json := jsonDecEq

/-- Lookup of a key in a Python dict (first matching binding). -/
def pyGet (k : String) : List (String × Json) → Option Json
  | [] => none
  | (k', v) :: rest => if k' = k then some v else pyGet k rest

/-- Assignment `d[k] = v` on a Python dict: update the existing binding in
place, or append a new binding at the end. -/
def pySetKey (k : String) (v : Json) : List (String × Json) → List (String × Json)
  | [] => [(k, v)]
  | (k', v') :: rest =>
    if k' = k then (k, v) :: rest else (k', v') :: pySetKey k v rest

/-- Single-quote character used by Python repr. -/
def sqChar : String := String.singleton (Char.ofNat 39)

mutual

/-- Python repr of a decoded JSON value (single quotes around strings). -/
def pyRepr : Json → String
  | .null => "None"
  | .bool true => "True"
  | .bool false => "False"
  | .num n => toString n
  | .str s => sqChar ++ s ++ sqChar
  | .arr xs => "[" ++ pyReprElems xs ++ "]"
  | .obj fs => "\x7b" ++ pyReprItems fs ++ "\x7d"

/-- Comma-separated reprs of list elements. -/
def pyReprElems : List Json → String
  | [] => ""
  | [x] => pyRepr x
  | x :: y :: rest => pyRepr x ++ ", " ++ pyReprElems (y :: rest)

/-- Comma-separated reprs of dict items. -/
def pyReprItems : List (String × Json) → String
  | [] => ""
  | [(k, v)] => sqChar ++ k ++ sqChar ++ ": " ++ pyRepr v
  | (k, v) :: kv :: rest =>
    sqChar ++ k ++ sqChar ++ ": " ++ pyRepr v ++ ", " ++ pyReprItems (kv :: rest)

end

/-- Python str() of a decoded JSON value. -/
def pyStr : Json → String
  | .str s => s
  | j => pyRepr j

/-- Failures raised as BF6APIError by the client, carried structurally so a
theorem can talk about the message content (api.py lines 18-19, 40-44,
61-85, 99). -/
inductive ApiFailure where
  | requestFailed (msg : String) : ApiFailure
  | serverError (status : Nat) (body200 : String) : ApiFailure
  | apiError (status : Nat) (errors : Json) : ApiFailure
  | invalidJson (msg : String) : ApiFailure
  | maxRetriesExceeded : ApiFailure
  | notResolved (name platform : String) : ApiFailure
deriving DecidableEq

instance {ε α : Type} [DecidableEq ε] [DecidableEq α] :
    DecidableEq (Except ε α) := fun a b =>
  match a, b with
  | .ok x, .ok y =>
    match decEq x y with
    | isTrue h => isTrue (by rw [h])
    | isFalse h => isFalse (fun hh => h (Except.ok.inj hh))
  | .error x, .error y =>
    match decEq x y with
    | isTrue h => isTrue (by rw [h])
    | isFalse h => isFalse (fun hh => h (Except.error.inj hh))
  | .ok _, .error _ => isFalse (fun h => Except.noConfusion h)
  | .error _, .ok _ => isFalse (fun h => Except.noConfusion h)

/-- Outcome of one HTTP attempt inside the retry loop: either the requests
library raised (netError) or a response with a status code, a body text and
the result of parsing that body as JSON came back. -/
inductive AttemptOutcome where
  | netError (msg : String) : AttemptOutcome
  | response (status : Nat) (text : String) (body : Except String Json) :
      AttemptOutcome
deriving DecidableEq

/-- Error payload for a 4xx response (api.py lines 72-78): the value under
the key errors when the body parsed to a dict, else a one-element list
holding the first 200 characters of the raw body.  A parsed non-dict body
makes the err.get call raise, which the bare except also turns into the
raw-body payload. -/
def errPayload (body : Except String Json) (text : String) : Json :=
  match body with
  | .ok (.obj fs) => (pyGet "errors" fs).getD (.arr [.str (text.take 200)])
  | _ => .arr [.str (text.take 200)]

/-- Whether an attempt outcome takes the retry path of the loop: a network
error or an HTTP 5xx response (api.py lines 61-70). -/
def isRetryFailure : AttemptOutcome → Bool
  | .netError _ => true
  | .response status _ _ => 500 ≤ status

/-- The BF6APIError message passed to sleep-or-raise for a retryable
failure (api.py lines 62 and 66-69). -/
def failureOf : AttemptOutcome → ApiFailure
  | .netError msg => .requestFailed msg
  | .response status text _ => .serverError status (text.take 200)

/-- Model of BF6APIClient sleep-or-raise (api.py lines 40-44): on the last
attempt return the error, otherwise return the backoff sleep duration in
seconds (RETRY_BACKOFF_SEC times attempt+1). -/
def sleep_or_raise (maxRetries attempt : Nat) (e : ApiFailure) :
    Except ApiFailure Nat :=
  if attempt = maxRetries - 1 then .error e else .ok (attempt + 1)

/-- Retry loop body of BF6APIClient request (api.py lines 54-85) over the
remaining attempt indices from range(max_retries), accumulating backoff
sleeps.  An exhausted range reaches the trailing raise on line 85.  The
rate-limit wait that precedes each attempt is real-time behaviour
orthogonal to the claims and is not part of the sleep list. -/
def requestSteps (maxRetries : Nat) (att : Nat → AttemptOutcome) :
    List Nat → List Nat → List Nat × Except ApiFailure Json
  | [], sleeps => (sleeps, .error .maxRetriesExceeded)
  | attempt :: rest, sleeps =>
    match att attempt with
    | .netError msg =>
      match sleep_or_raise maxRetries attempt (.requestFailed msg) with
      | .error e => (sleeps, .error e)
      | .ok d => requestSteps maxRetries att rest (sleeps ++ [d])
    | .response status text body =>
      if 500 ≤ status then
        match sleep_or_raise maxRetries attempt
            (.serverError status (text.take 200)) with
        | .error e => (sleeps, .error e)
        | .ok d => requestSteps maxRetries att rest (sleeps ++ [d])
      else if 400 ≤ status then
        (sleeps, .error (.apiError status (errPayload body text)))
      else
        match body with
        | .ok j => (sleeps, .ok j)
        | .error msg => (sleeps, .error (.invalidJson msg))

/-- Model of BF6APIClient request (api.py lines 46-85): run the retry loop
over the per-attempt outcomes, returning the backoff sleeps performed and
the final result. -/
def bf6Request (maxRetries : Nat) (att : Nat → AttemptOutcome) :
    List Nat × Except ApiFailure Json :=
  requestSteps maxRetries att (List.range maxRetries) []

/-- Model of BF6APIClient get_player_id response shaping (api.py lines
87-99), applied to the outcome of the underlying request: a dict with an
id key is returned as is; a non-empty list yields its first element, or
that element wrapped as a dict under id when it is not a dict; anything
else raises the could-not-resolve BF6APIError. -/
def get_player_id (name platform : String) (req : Except ApiFailure Json) :
    Except ApiFailure Json :=
  match req with
  | .error e => .error e
  | .ok data =>
    match data with
    | .obj fs =>
      if (pyGet "id" fs).isSome then .ok (.obj fs)
      else .error (.notResolved name platform)
    | .arr (x :: _) =>
      match x with
      | .obj fs => .ok (.obj fs)
      | other => .ok (.obj [("id", other)])
    | _ => .error (.notResolved name platform)

/-- Query parameters built by BF6APIClient get_stats (api.py lines
101-118), or a ValueError when neither a player id nor a non-empty name is
given.  Dict insertion order: platform first, then playerid or name. -/
def get_stats_params (name : Option String) (player_id : Option String)
    (platform : String) : Except Unit (List (String × String)) :=
  match player_id with
  | some pid => .ok [("platform", platform), ("playerid", pid)]
  | none =>
    match name with
    | some n =>
      if n = "" then .error () else .ok [("platform", platform), ("name", n)]
    | none => .error ()

/-- Local (ValueError) versus remote (BF6APIError) failure of a batch
call. -/
inductive BatchErr where
  | tooManyPlayers : BatchErr
  | api (e : ApiFailure) : BatchErr
deriving DecidableEq

/-- Result of get_stats_batch: whether the underlying request (and hence
its rate-limit wait) happened at all, and the returned value or error. -/
structure BatchResult where
  madeRequest : Bool
  outcome : Except BatchErr Json
deriving DecidableEq

/-- Model of BF6APIClient get_stats_batch (api.py lines 120-141).  The req
argument is the outcome the underlying POST request would produce.  An
empty id list returns immediately; more than 128 ids raises ValueError
before any request; otherwise the response is shaped: a list is returned
directly, a dict is unwrapped at the key result when present (whatever the
value there is) or wrapped as a one-element list, and any other value
becomes the empty list. -/
def get_stats_batch (player_ids : List String) (platform : String)
    (req : Except ApiFailure Json) : BatchResult :=
  if player_ids.isEmpty then ⟨false, .ok (.arr [])⟩
  else if 128 < player_ids.length then ⟨false, .error .tooManyPlayers⟩
  else
    match req with
    | .error e => ⟨true, .error (.api e)⟩
    | .ok data =>
      match data with
      | .arr xs => ⟨true, .ok (.arr xs)⟩
      | .obj fs =>
        match pyGet "result" fs with
        | some v => ⟨true, .ok v⟩
        | none => ⟨true, .ok (.arr [.obj fs])⟩
      | _ => ⟨true, .ok (.arr [])⟩

/-- Chunk extraction with explicit fuel: each step takes one slice of n
elements and recurses on the remainder.  The fuel is a structural bound on
the number of slices; chunksOf instantiates it with the list length, which
always suffices for n greater than 0. -/
def chunksOfFuel (n : Nat) : Nat → List String → List (List String)
  | 0, _ => []
  | _ + 1, [] => []
  | fuel + 1, x :: xs => (x :: xs).take n :: chunksOfFuel n fuel ((x :: xs).drop n)

/-- Consecutive slices of at most n elements, as produced by the Python
loop for i in range(0, len(l), n): l[i:i+n] (pipeline.py lines 86-87).
The n = 0 case never arises (n is the constant 128). -/
def chunksOf (n : Nat) (l : List String) : List (List String) :=
  chunksOfFuel n l.length l

/-- Player descriptor produced by load_config (pipeline.py lines 21-55). -/
structure PlayerDesc where
  name : String
  platform : String
deriving DecidableEq

/-- Remote calls the pipeline can make, identified by their endpoint and
arguments: GET /bf6/player/ (resolveCall), GET /bf6/stats/ (statsCall) and
POST /bf6/multiple/ (batchCall). -/
inductive ApiCall where
  | resolveCall (name platform : String) : ApiCall
  | statsCall (params : List (String × String)) : ApiCall
  | batchCall (ids : List String) (platform : String) : ApiCall
deriving DecidableEq

/-- Outcome environment for a pipeline run: the result the underlying
request (api.py lines 46-85) produces for the n-th remote call made, given
which call it is. -/
abbrev Oracle : Type := Nat → ApiCall → Except ApiFailure Json

/-- Errors that can escape run_pipeline to its caller. -/
inductive PipeErr where
  | api (e : ApiFailure) : PipeErr
  | valueErr : PipeErr
  | tooMany : PipeErr
  | typeErr : PipeErr
deriving DecidableEq

/-- Player id string extracted from a resolution result (pipeline.py lines
79-81): str(info.get(id, info)) for a dict, str(info) otherwise. -/
def pidStr (info : Json) : String :=
  pyStr (match info with
    | .obj fs => (pyGet "id" fs).getD (.obj fs)
    | j => j)

/-- Query parameters get_stats builds for a by-name fetch. -/
def statsParams (p : PlayerDesc) : List (String × String) :=
  [("platform", p.platform), ("name", p.name)]

/-- Single-mode loop of run_pipeline (pipeline.py lines 90-96): fetch each
player by name, appending successes and skipping BF6APIError failures;
get_stats raises ValueError for an empty name (api.py line 117), which is
not caught.  Returns the calls made and the final outcome. -/
def singleLoop (oracle : Oracle) :
    List PlayerDesc → Nat → List ApiCall → List Json →
    List ApiCall × Except PipeErr (List Json)
  | [], _, tr, res => (tr, .ok res)
  | p :: ps, k, tr, res =>
    match get_stats_params (some p.name) none p.platform with
    | .error _ => (tr, .error .valueErr)
    | .ok params =>
      match oracle k (.statsCall params) with
      | .ok j => singleLoop oracle ps (k + 1) (tr ++ [.statsCall params]) (res ++ [j])
      | .error _ => singleLoop oracle ps (k + 1) (tr ++ [.statsCall params]) res

/-- Python dict setdefault(platform, []).append(pid) on an insertion
ordered dict (pipeline.py line 82): extend the existing group or add a new
group at the end. -/
def setdefaultAppend : List (String × List String) → String → String →
    List (String × List String)
  | [], pl, v => [(pl, [v])]
  | (q, vs) :: rest, pl, v =>
    if q = pl then (q, vs ++ [v]) :: rest
    else (q, vs) :: setdefaultAppend rest pl v

/-- Resolution phase of batch mode (pipeline.py lines 74-84): resolve each
player in input order, grouping the id strings of successful resolutions
by platform and silently dropping BF6APIError failures.  Returns the next
call counter, the calls made and the groups. -/
def resolveLoop (oracle : Oracle) :
    List PlayerDesc → Nat → List ApiCall → List (String × List String) →
    Nat × List ApiCall × List (String × List String)
  | [], k, tr, groups => (k, tr, groups)
  | p :: ps, k, tr, groups =>
    match get_player_id p.name p.platform
        (oracle k (.resolveCall p.name p.platform)) with
    | .ok info =>
      resolveLoop oracle ps (k + 1) (tr ++ [.resolveCall p.name p.platform])
        (setdefaultAppend groups p.platform (pidStr info))
    | .error _ =>
      resolveLoop oracle ps (k + 1) (tr ++ [.resolveCall p.name p.platform])
        groups

/-- Elements contributed by results.extend(x) in Python: lists contribute
their elements, dicts their keys, strings their characters; other values
are not iterable and raise TypeError. -/
def pyExtendElems : Json → Except PipeErr (List Json)
  | .arr xs => .ok xs
  | .obj fs => .ok (fs.map (fun kv => .str kv.1))
  | .str s => .ok (s.toList.map (fun c => .str (String.singleton c)))
  | _ => .error .typeErr

/-- Chunk loop of batch mode for one platform (pipeline.py lines 86-89):
call get_stats_batch on each chunk, extending the result list.  Errors
raised by get_stats_batch are not caught and abort the pipeline. -/
def chunkLoop (oracle : Oracle) (platform : String) :
    List (List String) → Nat → List ApiCall → List Json →
    Nat × List ApiCall × Except PipeErr (List Json)
  | [], k, tr, res => (k, tr, .ok res)
  | c :: cs, k, tr, res =>
    let b := get_stats_batch c platform (oracle k (.batchCall c platform))
    let k' := if b.madeRequest then k + 1 else k
    let tr' := if b.madeRequest then tr ++ [.batchCall c platform] else tr
    match b.outcome with
    | .error .tooManyPlayers => (k', tr', .error .tooMany)
    | .error (.api e) => (k', tr', .error (.api e))
    | .ok data =>
      match pyExtendElems data with
      | .error e => (k', tr', .error e)
      | .ok xs => chunkLoop oracle platform cs k' tr' (res ++ xs)

/-- Outer batch loop over the platform groups (pipeline.py lines 85-89). -/
def batchLoop (oracle : Oracle) :
    List (String × List String) → Nat → List ApiCall → List Json →
    List ApiCall × Except PipeErr (List Json)
  | [], _, tr, res => (tr, .ok res)
  | (pl, ids) :: rest, k, tr, res =>
    match chunkLoop oracle pl (chunksOf 128 ids) k tr res with
    | (k', tr', .ok res') => batchLoop oracle rest k' tr' res'
    | (_, tr', .error e) => (tr', .error e)

/-- Model of run_pipeline (pipeline.py lines 58-97): batch mode when
batching is requested and more than one player is configured, single mode
otherwise.  Returns the remote calls made in order together with the
result list or the first uncaught error. -/
def run_pipeline (players : List PlayerDesc) (use_batch : Bool)
    (oracle : Oracle) : List ApiCall × Except PipeErr (List Json) :=
  if use_batch ∧ 1 < players.length then
    let r := resolveLoop oracle players 0 [] []
    batchLoop oracle r.2.2 r.1 r.2.1 []
  else
    singleLoop oracle players 0 [] []

/-- Errors load_config can raise (pipeline.py lines 29-54): a missing file
(FileNotFoundError), PyYAML missing (ImportError), an unrecognised
extension, a top level that does not resolve to a list, or an invalid
player entry (the last three are ValueError). -/
inductive LoadErr where
  | fileNotFound : LoadErr
  | yamlImportError : LoadErr
  | unsupportedFormat (suffix : String) : LoadErr
  | playersNotAList : LoadErr
  | invalidEntry (entry : Json) : LoadErr
deriving DecidableEq

/-- A config file as load_config sees it: whether the path exists, its
lower-cased suffix, whether PyYAML is importable, and the document the
matching parser produced from its text. -/
structure ConfigFile where
  present : Bool
  suffix : String
  yamlAvailable : Bool
  doc : Json

/-- One player entry (pipeline.py lines 47-54): a dict containing at least
name yields a descriptor whose platform defaults to pc; anything else is
invalid. -/
def descOfEntry : Json → Option PlayerDesc
  | .obj fs =>
    match pyGet "name" fs with
    | some nv =>
      some ⟨pyStr nv, pyStr ((pyGet "platform" fs).getD (.str "pc"))⟩
    | none => none
  | _ => none

/-- Entry loop of load_config: all entries must be valid, otherwise the
first invalid entry raises. -/
def entriesLoop : List Json → Except LoadErr (List PlayerDesc)
  | [] => .ok []
  | e :: es =>
    match descOfEntry e with
    | some d => (entriesLoop es).map (fun ds => d :: ds)
    | none => .error (.invalidEntry e)

/-- Top-level shape resolution of load_config (pipeline.py line 43):
data.get(players, data) for a dict, data itself otherwise. -/
def resolvedPlayersDoc (doc : Json) : Json :=
  match doc with
  | .obj fs => (pyGet "players" fs).getD (.obj fs)
  | d => d

/-- Document part of load_config (pipeline.py lines 43-55). -/
def parsePlayers (doc : Json) : Except LoadErr (List PlayerDesc) :=
  match resolvedPlayersDoc doc with
  | .arr ps => entriesLoop ps
  | _ => .error .playersNotAList

/-- Model of load_config (pipeline.py lines 21-55).  Parsing itself is
delegated to json/yaml; the model receives the parsed document. -/
def load_config (cfg : ConfigFile) : Except LoadErr (List PlayerDesc) :=
  if ¬ cfg.present then .error .fileNotFound
  else if cfg.suffix = ".yaml" ∨ cfg.suffix = ".yml" then
    if ¬ cfg.yamlAvailable then .error .yamlImportError
    else parsePlayers cfg.doc
  else if cfg.suffix = ".json" then parsePlayers cfg.doc
  else .error (.unsupportedFormat cfg.suffix)

/-- Allow-list of summary fields (storage.py lines 12-33). -/
def SUMMARY_KEYS : List String :=
  ["userName", "id", "userId", "kills", "deaths", "wins", "loses",
   "winPercent", "killDeath", "killsPerMinute", "damagePerMinute",
   "accuracy", "headshots", "timePlayed", "secondsPlayed",
   "matchesPlayed", "revives", "heals", "resupplies", "repairs"]

/-- SQLite column list (storage.py line 36). -/
def SQLITE_COLUMNS : List String := ["run_id", "fetched_at"] ++ SUMMARY_KEYS

/-- A raw stat record, a Python dict. -/
abbrev Dict : Type := List (String × Json)

/-- Model of flatten_summary (storage.py lines 54-64): a fresh dict whose
first key is fetched_at holding the write-time timestamp, followed by the
allow-list keys present in the record, in allow-list order.  The timestamp
string (datetime.now rendering) is passed in explicitly. -/
def flatten_summary (nowIso : String) (stats : Dict) : Dict :=
  ("fetched_at", .str nowIso) ::
    SUMMARY_KEYS.filterMap (fun k => (pyGet k stats).map (fun v => (k, v)))

/-- Inner step of the header collection (storage.py lines 70-73): append
each not-yet-seen key of one summary. -/
def addNewKeys (keys : List String) (s : Dict) : List String :=
  s.foldl (fun acc kv => if kv.1 ∈ acc then acc else acc ++ [kv.1]) keys

/-- Model of the header collection over all summaries (storage.py lines
67-74): the first summary keys, then every new key of later summaries in
first-seen order.  The empty case never arises (save_csv rejects empty
input first). -/
def all_summary_keys : List Dict → List String
  | [] => []
  | s :: rest => rest.foldl addNewKeys (s.map Prod.fst)

/-- Rendering of one CSV cell: csv.DictWriter writes missing fields and
None as the empty string and str() of the value otherwise. -/
def csvCell : Option Json → String
  | none => ""
  | some .null => ""
  | some v => pyStr v

/-- Model of save_csv (storage.py lines 92-108): reject an empty result
list, flatten every record (each flattening reads the clock, hence the
per-record timestamp function), then emit the header and one row per
record with missing values rendered empty. -/
def save_csv (recNow : Nat → String) (records : List Dict) :
    Except Unit (List String × List (List String)) :=
  if records.isEmpty then .error ()
  else
    let summaries := records.enum.map (fun ip => flatten_summary (recNow ip.1) ip.2)
    let fieldnames := all_summary_keys summaries
    .ok (fieldnames,
      summaries.map (fun s => fieldnames.map (fun k => csvCell (pyGet k s))))

/-- One SQLite row: the fixed column list with the value bound to each
column, None for absent summary keys (storage.py line 148). -/
abbrev SqlRow : Type := List (String × Option Json)

/-- The run id used by save_sqlite (storage.py line 128): run_id or
now.strftime, where an absent or empty run_id falls back to the
timestamp. -/
def effectiveRunId (run_id : Option String) (nowFmt : String) : String :=
  match run_id with
  | some s => if s = "" then nowFmt else s
  | none => nowFmt

/-- Row built for one record inside save_sqlite (storage.py lines
144-148): flatten the record with its own clock reading, then overwrite
run_id and fetched_at with the per-call values, and bind the fixed column
list. -/
def sqliteRowOf (rid fetched recNowI : String) (r : Dict) : SqlRow :=
  let summary :=
    pySetKey "fetched_at" (.str fetched)
      (pySetKey "run_id" (.str rid) (flatten_summary recNowI r))
  SQLITE_COLUMNS.map (fun c => (c, pyGet c summary))

/-- Model of save_sqlite (storage.py lines 111-153) acting on the stats
table contents: an empty result list leaves the table untouched, otherwise
one row per record is appended, sharing the fetched_at timestamp and run
id computed once at the start of the call. -/
def save_sqlite (records : List Dict) (run_id : Option String)
    (nowIso nowFmt : String) (recNow : Nat → String)
    (table : List SqlRow) : List SqlRow :=
  if records.isEmpty then table
  else
    table ++ records.enum.map (fun ip =>
      sqliteRowOf (effectiveRunId run_id nowFmt) nowIso (recNow ip.1) ip.2)

/-- Scalar Json values: neither a list nor a dict. -/
def jsonIsScalar : Json → Bool
  | .arr _ => false
  | .obj _ => false
  | _ => true

/-- Lookup of a column binding in a SQLite row. -/
def rowLookup (c : String) : SqlRow → Option (Option Json)
  | [] => none
  | (c', v) :: rest => if c' = c then some v else rowLookup c rest

/-- Allow-list keys present in a record, in allow-list order. -/
def presentKeys (r : Dict) : List String :=
  SUMMARY_KEYS.filter (fun k => (pyGet k r).isSome)

/-- Append the not-yet-seen elements of ks to acc. -/
def dedupAppend (acc ks : List String) : List String :=
  acc ++ ks.filter (fun k => decide (k ∉ acc))

/-- CSV header as the specification words it: fetched_at first, then the
first record's present allow-list keys in allow-list order, then any new
keys introduced by later records in processing order. -/
def specHeader (records : List Dict) : List String :=
  "fetched_at" :: records.foldl (fun acc r => dedupAppend acc (presentKeys r)) []

/-- Sequential key insertion, the generic core of addNewKeys. -/
def insKeys (acc : List String) (ks : List String) : List String :=
  ks.foldl (fun a k => if k ∈ a then a else a ++ [k]) acc

/-- First-seen deduplication walk with an accumulator of already seen
elements. -/
def firstSeenAux (seen : List String) : List String → List String
  | [] => []
  | x :: xs =>
    if x ∈ seen then firstSeenAux seen xs
    else x :: firstSeenAux (seen ++ [x]) xs

/-- Distinct elements of a list in order of first occurrence. -/
def firstSeen (l : List String) : List String := firstSeenAux [] l

/-- Ids recorded for one platform, in resolution order. -/
def valuesFor (pl : String) (pairs : List (String × String)) : List String :=
  (pairs.filter (fun pr => pr.1 == pl)).map Prod.snd

/-- Platform groups as the specification words them: one group per distinct
platform in first-encounter order, holding that platform's ids in
resolution order. -/
def groupedPairs (pairs : List (String × String)) :
    List (String × List String) :=
  (firstSeen (pairs.map Prod.fst)).map (fun pl => (pl, valuesFor pl pairs))

/-- Stats gathered in single mode: the responses of the successful
per-player fetches, in input order; failed fetches contribute nothing. -/
def fetchedStats (oracle : Oracle) : Nat → List PlayerDesc → List Json
  | _, [] => []
  | k, p :: ps =>
    match oracle k (.statsCall (statsParams p)) with
    | .ok j => j :: fetchedStats oracle (k + 1) ps
    | .error _ => fetchedStats oracle (k + 1) ps

/-- Platform/id pairs of the players whose resolution succeeds, in input
order. -/
def resolvedPairs (oracle : Oracle) : Nat → List PlayerDesc → List (String × String)
  | _, [] => []
  | k, p :: ps =>
    match get_player_id p.name p.platform
        (oracle k (.resolveCall p.name p.platform)) with
    | .ok info => (p.platform, pidStr info) :: resolvedPairs oracle (k + 1) ps
    | .error _ => resolvedPairs oracle (k + 1) ps

/-- Platform/id pairs when every resolution succeeds with the given id. -/
def allPids (pid : Nat → String) : Nat → List PlayerDesc → List (String × String)
  | _, [] => []
  | k, p :: ps => (p.platform, pid k) :: allPids pid (k + 1) ps

/-- Three hundred identically-platformed players, used to exercise the
chunking example of the specification. -/
def playersC5 : List PlayerDesc :=
  (List.range 300).map (fun i => ⟨toString i, "pc"⟩)

/-- Oracle for the chunking example: resolution returns the call counter
as the player id, batch calls echo per-id stats. -/
def oracleC5 : Oracle := fun k call =>
  match call with
  | .resolveCall _ _ => .ok (.obj [("id", .str (toString k))])
  | .batchCall ids _ => .ok (.arr (ids.map Json.str))
  | .statsCall _ => .error .maxRetriesExceeded

/-- The three hundred resolved id strings. -/
def idsC5 : List String := (List.range 300).map toString

lemma requestSteps_retry_not_last (maxRetries : Nat) (att : Nat → AttemptOutcome)
    (attempt : Nat) (rest sleeps : List Nat)
    (hfail : isRetryFailure (att attempt) = true)
    (hnl : attempt ≠ maxRetries - 1) :
    requestSteps maxRetries att (attempt :: rest) sleeps =
      requestSteps maxRetries att rest (sleeps ++ [attempt + 1]) := by
  cases ha : att attempt with
  | netError msg => simp [requestSteps, ha, sleep_or_raise, hnl]
  | response s t b =>
    have hs : 500 ≤ s := by
      rw [ha] at hfail
      simpa [isRetryFailure] using hfail
    simp [requestSteps, ha, sleep_or_raise, hnl, hs]

lemma requestSteps_retry_last (maxRetries : Nat) (att : Nat → AttemptOutcome)
    (attempt : Nat) (rest sleeps : List Nat)
    (hfail : isRetryFailure (att attempt) = true)
    (hl : attempt = maxRetries - 1) :
    requestSteps maxRetries att (attempt :: rest) sleeps =
      (sleeps, .error (failureOf (att attempt))) := by
  subst hl
  cases ha : att (maxRetries - 1) with
  | netError msg => simp [requestSteps, ha, sleep_or_raise, failureOf]
  | response s t b =>
    have hs : 500 ≤ s := by
      rw [ha] at hfail
      simpa [isRetryFailure] using hfail
    simp [requestSteps, ha, sleep_or_raise, hs, failureOf]

lemma requestSteps_4xx (maxRetries : Nat) (att : Nat → AttemptOutcome)
    (attempt : Nat) (rest sleeps : List Nat) (s : Nat) (t : String)
    (b : Except String Json) (hatt : att attempt = .response s t b)
    (h4 : 400 ≤ s) (h5 : s < 500) :
    requestSteps maxRetries att (attempt :: rest) sleeps =
      (sleeps, .error (.apiError s (errPayload b t))) := by
  have hns : ¬ 500 ≤ s := by omega
  simp [requestSteps, hatt, hns, h4]

/-- C2: every call through the request path retries a network failure or
HTTP 5xx up to 3 total attempts, sleeping 1 second after the first failed
attempt and 2 seconds after the second; when all three attempts fail the
call raises the client error exactly once, carrying the last failure
message. -/
theorem request_retry_exhaustion (att : Nat → AttemptOutcome)
    (h0 : isRetryFailure (att 0) = true)
    (h1 : isRetryFailure (att 1) = true)
    (h2 : isRetryFailure (att 2) = true) :
    bf6Request 3 att = ([1, 2], .error (failureOf (att 2))) := by
  have hr : List.range 3 = [0, 1, 2] := rfl
  rw [bf6Request, hr,
    requestSteps_retry_not_last 3 att 0 _ _ h0 (by omega),
    requestSteps_retry_not_last 3 att 1 _ _ h1 (by omega),
    requestSteps_retry_last 3 att 2 _ _ h2 (by omega)]
  rfl

theorem request_retry_exhaustion_witness :
    isRetryFailure (.netError "conn reset") = true ∧
    bf6Request 3 (fun _ => .netError "conn reset") =
      ([1, 2], .error (.requestFailed "conn reset")) :=
  ⟨rfl, request_retry_exhaustion (fun _ => .netError "conn reset") rfl rfl rfl⟩

/-- C3: an HTTP 4xx response at any attempt makes the call fail
immediately with no further attempts and no further backoff sleeps,
raising a client error that embeds the response body value under errors,
or the raw body truncated to 200 characters when the body cannot be
parsed (or parses without an errors key). -/
theorem request_4xx_immediate (att : Nat → AttemptOutcome) (k : Nat)
    (hk : k < 3) (hbefore : ∀ j, j < k → isRetryFailure (att j) = true)
    (s : Nat) (t : String) (b : Except String Json)
    (hatt : att k = .response s t b) (h4 : 400 ≤ s) (h5 : s < 500) :
    bf6Request 3 att =
      ((List.range k).map (fun i => i + 1),
        .error (.apiError s (errPayload b t))) ∧
    (∀ msg t', errPayload (.error msg) t' = .arr [.str (t'.take 200)]) ∧
    (∀ fs t' e, pyGet "errors" fs = some e → errPayload (.ok (.obj fs)) t' = e) ∧
    (∀ fs t', pyGet "errors" fs = none →
      errPayload (.ok (.obj fs)) t' = .arr [.str (t'.take 200)]) := by
  refine ⟨?_, fun msg t' => rfl, fun fs t' e he => by simp [errPayload, he],
    fun fs t' he => by simp [errPayload, he]⟩
  have hr : List.range 3 = [0, 1, 2] := rfl
  interval_cases k
  · rw [bf6Request, hr, requestSteps_4xx 3 att 0 _ _ s t b hatt h4 h5]
    rfl
  · rw [bf6Request, hr,
      requestSteps_retry_not_last 3 att 0 _ _ (hbefore 0 (by omega)) (by omega),
      requestSteps_4xx 3 att 1 _ _ s t b hatt h4 h5]
    rfl
  · rw [bf6Request, hr,
      requestSteps_retry_not_last 3 att 0 _ _ (hbefore 0 (by omega)) (by omega),
      requestSteps_retry_not_last 3 att 1 _ _ (hbefore 1 (by omega)) (by omega),
      requestSteps_4xx 3 att 2 _ _ s t b hatt h4 h5]
    rfl

theorem request_4xx_immediate_witness :
    (1 : Nat) < 3 ∧
    isRetryFailure (.netError "conn refused") = true ∧
    bf6Request 3 (fun k => if k = 0 then .netError "conn refused"
      else .response 403 "forbidden" (.ok (.obj [("errors", .arr [.str "denied"])]))) =
      ([1], .error (.apiError 403 (.arr [.str "denied"]))) :=
  ⟨by decide, rfl,
    (request_4xx_immediate
      (fun k => if k = 0 then .netError "conn refused"
        else .response 403 "forbidden" (.ok (.obj [("errors", .arr [.str "denied"])])))
      1 (by decide)
      (by
        intro j hj
        interval_cases j
        rfl)
      403 "forbidden" (.ok (.obj [("errors", .arr [.str "denied"])]))
      rfl (by decide) (by decide)).1⟩

/-- C4 (amended): get_stats_batch raises a local ValueError without any
network call for more than 128 ids; otherwise a list response is returned
directly, an object containing the key result is unwrapped to the value
under that key whatever its shape, an object without that key is wrapped
in a one-element list, and any other (scalar) response yields the empty
list. -/
theorem get_stats_batch_shaping :
    (∀ (ids : List String) (pl : String) (req : Except ApiFailure Json),
        128 < ids.length →
        get_stats_batch ids pl req = ⟨false, .error .tooManyPlayers⟩)
  ∧ (∀ (ids : List String) (pl : String) (xs : List Json),
        ids ≠ [] → ids.length ≤ 128 →
        get_stats_batch ids pl (.ok (.arr xs)) = ⟨true, .ok (.arr xs)⟩)
  ∧ (∀ (ids : List String) (pl : String) (fs : List (String × Json)) (v : Json),
        ids ≠ [] → ids.length ≤ 128 → pyGet "result" fs = some v →
        get_stats_batch ids pl (.ok (.obj fs)) = ⟨true, .ok v⟩)
  ∧ (∀ (ids : List String) (pl : String) (fs : List (String × Json)),
        ids ≠ [] → ids.length ≤ 128 → pyGet "result" fs = none →
        get_stats_batch ids pl (.ok (.obj fs)) = ⟨true, .ok (.arr [.obj fs])⟩)
  ∧ (∀ (ids : List String) (pl : String) (j : Json),
        ids ≠ [] → ids.length ≤ 128 → jsonIsScalar j = true →
        get_stats_batch ids pl (.ok j) = ⟨true, .ok (.arr [])⟩) := by
  refine ⟨?_, ?_, ?_, ?_, ?_⟩
  · intro ids pl req h
    have hne : ¬ ids.isEmpty = true := by
      intro hh
      rw [List.isEmpty_iff.mp hh] at h
      simp at h
    simp [get_stats_batch, hne, h]
  · intro ids pl xs hne hlen
    have hne' : ¬ ids.isEmpty = true := fun hh => hne (List.isEmpty_iff.mp hh)
    simp [get_stats_batch, hne', Nat.not_lt.mpr hlen]
  · intro ids pl fs v hne hlen hres
    have hne' : ¬ ids.isEmpty = true := fun hh => hne (List.isEmpty_iff.mp hh)
    simp [get_stats_batch, hne', Nat.not_lt.mpr hlen, hres]
  · intro ids pl fs hne hlen hres
    have hne' : ¬ ids.isEmpty = true := fun hh => hne (List.isEmpty_iff.mp hh)
    simp [get_stats_batch, hne', Nat.not_lt.mpr hlen, hres]
  · intro ids pl j hne hlen hsc
    have hne' : ¬ ids.isEmpty = true := fun hh => hne (List.isEmpty_iff.mp hh)
    cases j with
    | arr xs => simp [jsonIsScalar] at hsc
    | obj fs => simp [jsonIsScalar] at hsc
    | null => simp [get_stats_batch, hne', Nat.not_lt.mpr hlen]
    | bool b => simp [get_stats_batch, hne', Nat.not_lt.mpr hlen]
    | num n => simp [get_stats_batch, hne', Nat.not_lt.mpr hlen]
    | str s => simp [get_stats_batch, hne', Nat.not_lt.mpr hlen]

theorem get_stats_batch_shaping_witness :
    (128 < ((List.range 129).map toString).length ∧
      get_stats_batch ((List.range 129).map toString) "pc" (.ok .null) =
        ⟨false, .error .tooManyPlayers⟩)
  ∧ get_stats_batch ["7"] "pc" (.ok (.arr [.num 1])) = ⟨true, .ok (.arr [.num 1])⟩
  ∧ get_stats_batch ["7"] "pc" (.ok (.obj [("result", .arr [])])) = ⟨true, .ok (.arr [])⟩
  ∧ get_stats_batch ["7"] "pc" (.ok (.obj [("x", .num 1)])) =
      ⟨true, .ok (.arr [.obj [("x", .num 1)]])⟩
  ∧ get_stats_batch ["7"] "pc" (.ok (.num 3)) = ⟨true, .ok (.arr [])⟩ :=
  ⟨⟨by simp, get_stats_batch_shaping.1 _ "pc" _ (by simp)⟩,
    get_stats_batch_shaping.2.1 ["7"] "pc" [.num 1] (by decide) (by decide),
    get_stats_batch_shaping.2.2.1 ["7"] "pc" [("result", .arr [])] (.arr [])
      (by decide) (by decide) rfl,
    get_stats_batch_shaping.2.2.2.1 ["7"] "pc" [("x", .num 1)]
      (by decide) (by decide) rfl,
    get_stats_batch_shaping.2.2.2.2 ["7"] "pc" (.num 3)
      (by decide) (by decide) rfl⟩

theorem get_stats_batch_result_cex :
    (get_stats_batch ["1"] "pc" (.ok (.obj [("result", .num 5)]))).outcome =
      .ok (.num 5)
  ∧ Json.num 5 ≠ .arr [.obj [("result", .num 5)]]
  ∧ Json.num 5 ≠ .arr [] :=
  ⟨rfl, by decide, by decide⟩

/-- C9: for every platform and whatever the request would have produced,
get_stats_batch on an empty id list returns the empty list with no
request made (hence no rate-limit wait) and no error. -/
theorem get_stats_batch_empty (pl : String) (req : Except ApiFailure Json) :
    get_stats_batch [] pl req = ⟨false, .ok (.arr [])⟩ := rfl

lemma entriesLoop_ok (ps : List Json)
    (h : ∀ e ∈ ps, (descOfEntry e).isSome) :
    entriesLoop ps = .ok (ps.filterMap descOfEntry) := by
  induction ps with
  | nil => rfl
  | cons e es ih =>
    obtain ⟨d, hd⟩ := Option.isSome_iff_exists.mp (h e (by simp))
    rw [List.filterMap_cons]
    simp only [entriesLoop, hd, ih (fun x hx => h x (by simp [hx]))]
    rfl

lemma entriesLoop_err (ps : List Json)
    (h : ∃ e ∈ ps, descOfEntry e = none) :
    ∃ e, entriesLoop ps = .error (.invalidEntry e) := by
  induction ps with
  | nil => simp at h
  | cons e es ih =>
    cases hd : descOfEntry e with
    | none => exact ⟨e, by simp [entriesLoop, hd]⟩
    | some d =>
      obtain ⟨x, hx, hxn⟩ := h
      rcases List.mem_cons.mp hx with rfl | hxs
      · rw [hd] at hxn
        cases hxn
      · obtain ⟨e', he'⟩ := ih ⟨x, hxs, hxn⟩
        exact ⟨e', by simp [entriesLoop, hd, he', Except.map]⟩

lemma length_filterMap_of_all {α β : Type} (f : α → Option β) (l : List α)
    (h : ∀ a ∈ l, (f a).isSome) : (l.filterMap f).length = l.length := by
  induction l with
  | nil => rfl
  | cons a as ih =>
    obtain ⟨b, hb⟩ := Option.isSome_iff_exists.mp (h a (by simp))
    rw [List.filterMap_cons, hb]
    simp [ih (fun x hx => h x (by simp [hx]))]

lemma load_config_json (cfg : ConfigFile) (hp : cfg.present = true)
    (hs : cfg.suffix = ".json") : load_config cfg = parsePlayers cfg.doc := by
  have hy : ¬ (cfg.suffix = ".yaml" ∨ cfg.suffix = ".yml") := by
    rw [hs]
    decide
  simp [load_config, hp, hy, hs]

/-- C6: for a present json config whose document resolves to a list of N
valid entries, load_config returns exactly N descriptors in input order
with platform defaulting to pc when omitted; an entry missing name or a
top level not resolvable to a list raises a configuration ValueError, and
a missing file raises the distinct not-found error. -/
theorem load_config_correct :
    (∀ cfg : ConfigFile, cfg.present = false →
        load_config cfg = .error .fileNotFound)
  ∧ (∀ (cfg : ConfigFile) (ps : List Json), cfg.present = true →
        cfg.suffix = ".json" → resolvedPlayersDoc cfg.doc = .arr ps →
        (∀ e ∈ ps, (descOfEntry e).isSome) →
        load_config cfg = .ok (ps.filterMap descOfEntry) ∧
        (ps.filterMap descOfEntry).length = ps.length)
  ∧ (∀ (fs : List (String × Json)) (nv : Json), pyGet "name" fs = some nv →
        pyGet "platform" fs = none →
        descOfEntry (.obj fs) = some ⟨pyStr nv, "pc"⟩)
  ∧ (∀ cfg : ConfigFile, cfg.present = true → cfg.suffix = ".json" →
        (∀ xs, resolvedPlayersDoc cfg.doc ≠ .arr xs) →
        load_config cfg = .error .playersNotAList)
  ∧ (∀ (cfg : ConfigFile) (ps : List Json), cfg.present = true →
        cfg.suffix = ".json" → resolvedPlayersDoc cfg.doc = .arr ps →
        (∃ e ∈ ps, descOfEntry e = none) →
        ∃ e, load_config cfg = .error (.invalidEntry e))
  ∧ (∀ e : Json, LoadErr.fileNotFound ≠ .playersNotAList ∧
        LoadErr.fileNotFound ≠ .invalidEntry e) := by
  refine ⟨?_, ?_, ?_, ?_, ?_, ?_⟩
  · intro cfg hp
    simp [load_config, hp]
  · intro cfg ps hp hs hdoc hall
    refine ⟨?_, ?_⟩
    · rw [load_config_json cfg hp hs, parsePlayers, hdoc]
      exact entriesLoop_ok ps hall
    · exact length_filterMap_of_all descOfEntry ps hall
  · intro fs nv hn hpl
    simp [descOfEntry, hn, hpl, pyStr]
  · intro cfg hp hs hnl
    rw [load_config_json cfg hp hs, parsePlayers]
    cases hd : resolvedPlayersDoc cfg.doc with
    | arr xs => exact absurd hd (hnl xs)
    | null => rfl
    | bool b => rfl
    | num n => rfl
    | str s => rfl
    | obj fs => rfl
  · intro cfg ps hp hs hdoc hbad
    obtain ⟨e, he⟩ := entriesLoop_err ps hbad
    refine ⟨e, ?_⟩
    rw [load_config_json cfg hp hs, parsePlayers, hdoc]
    exact he
  · intro e
    exact ⟨by decide, fun h => by cases h⟩

theorem load_config_correct_witness :
    load_config ⟨false, ".json", false, .null⟩ = .error .fileNotFound
  ∧ load_config ⟨true, ".json", false,
      .obj [("players", .arr [.obj [("name", .str "foo")],
        .obj [("name", .str "bar"), ("platform", .str "psn")]])]⟩ =
      .ok [⟨"foo", "pc"⟩, ⟨"bar", "psn"⟩]
  ∧ descOfEntry (.obj [("name", .str "foo")]) = some ⟨"foo", "pc"⟩
  ∧ load_config ⟨true, ".json", false, .num 3⟩ = .error .playersNotAList
  ∧ (∃ e, load_config ⟨true, ".json", false, .arr [.obj [("nick", .str "x")]]⟩ =
      .error (.invalidEntry e)) :=
  ⟨load_config_correct.1 _ rfl,
    (load_config_correct.2.1
      ⟨true, ".json", false,
        .obj [("players", .arr [.obj [("name", .str "foo")],
          .obj [("name", .str "bar"), ("platform", .str "psn")]])]⟩
      [.obj [("name", .str "foo")], .obj [("name", .str "bar"), ("platform", .str "psn")]]
      rfl rfl rfl (by decide)).1,
    load_config_correct.2.2.1 [("name", .str "foo")] (.str "foo") rfl rfl,
    load_config_correct.2.2.2.1 ⟨true, ".json", false, .num 3⟩ rfl rfl
      (by
        intro xs h
        simp [resolvedPlayersDoc] at h),
    load_config_correct.2.2.2.2.1 ⟨true, ".json", false,
        .arr [.obj [("nick", .str "x")]]⟩ [.obj [("nick", .str "x")]] rfl rfl rfl
      ⟨.obj [("nick", .str "x")], by decide⟩⟩

lemma pyGet_pySetKey_same (k : String) (v : Json) (d : List (String × Json)) :
    pyGet k (pySetKey k v d) = some v := by
  induction d with
  | nil => simp [pySetKey, pyGet]
  | cons kv rest ih =>
    obtain ⟨k', v'⟩ := kv
    by_cases h : k' = k
    · simp [pySetKey, pyGet, h]
    · simp [pySetKey, pyGet, h, ih]

lemma pyGet_pySetKey_other (k k' : String) (v : Json)
    (d : List (String × Json)) (h : k' ≠ k) :
    pyGet k (pySetKey k' v d) = pyGet k d := by
  induction d with
  | nil => simp [pySetKey, pyGet, h]
  | cons kv rest ih =>
    obtain ⟨k'', v''⟩ := kv
    by_cases h2 : k'' = k'
    · subst h2
      simp [pySetKey, pyGet, h]
    · have h4 : ¬ k = k' := fun hh => h hh.symm
      by_cases h3 : k'' = k
      · simp [pySetKey, pyGet, h2, h3, h4]
      · simp [pySetKey, pyGet, h2, h3, h4, ih]

/-- C8: save_sqlite only ever appends; calling it twice with the same
non-empty result list and fixed run id on a fresh store yields exactly
twice the row count of a single call, and any existing table contents
remain a prefix of the table after a call. -/
theorem save_sqlite_append_only (records : List Dict) (run_id : Option String)
    (t1 f1 t2 f2 : String) (rn1 rn2 : Nat → String)
    (h : records ≠ []) :
    (save_sqlite records run_id t2 f2 rn2
        (save_sqlite records run_id t1 f1 rn1 [])).length =
      2 * (save_sqlite records run_id t1 f1 rn1 []).length
    ∧ (∀ table : List SqlRow,
        table <+: save_sqlite records run_id t1 f1 rn1 table) := by
  have hne : ¬ records.isEmpty = true := fun hh => h (List.isEmpty_iff.mp hh)
  constructor
  · simp [save_sqlite, hne]
    omega
  · intro table
    by_cases he : records.isEmpty = true
    · simp [save_sqlite, he]
    · simp [save_sqlite, he]

theorem save_sqlite_append_only_witness :
    [[("kills", Json.num 1)]] ≠ ([] : List Dict) ∧
    (save_sqlite [[("kills", .num 1)]] (some "r") "T2" "F2" (fun _ => "t2")
        (save_sqlite [[("kills", .num 1)]] (some "r") "T1" "F1" (fun _ => "t1") [])).length =
      2 * (save_sqlite [[("kills", .num 1)]] (some "r") "T1" "F1" (fun _ => "t1") []).length :=
  ⟨by decide,
    (save_sqlite_append_only [[("kills", .num 1)]] (some "r") "T1" "F1" "T2" "F2"
      (fun _ => "t1") (fun _ => "t2") (by decide)).1⟩

/-- C10: every row inserted by one save_sqlite call carries the identical
per-call fetched_at timestamp and the identical run id, whatever the
per-record timestamps produced inside flatten_summary were; the
flatten-level fetched_at is overwritten before insertion. -/
theorem save_sqlite_uniform_stamps (records : List Dict) (run_id : Option String)
    (nowIso nowFmt : String) (recNow : Nat → String) (row : SqlRow)
    (hrow : row ∈ save_sqlite records run_id nowIso nowFmt recNow []) :
    rowLookup "fetched_at" row = some (some (.str nowIso)) ∧
    rowLookup "run_id" row = some (some (.str (effectiveRunId run_id nowFmt))) := by
  by_cases he : records.isEmpty = true
  · rw [save_sqlite, if_pos he] at hrow
    simp at hrow
  · rw [save_sqlite, if_neg he, List.nil_append, List.mem_map] at hrow
    obtain ⟨ip, _hmem, hr⟩ := hrow
    subst hr
    rw [sqliteRowOf]
    have hfa : pyGet "fetched_at"
        (pySetKey "fetched_at" (.str nowIso)
          (pySetKey "run_id" (.str (effectiveRunId run_id nowFmt))
            (flatten_summary (recNow ip.1) ip.2))) = some (.str nowIso) :=
      pyGet_pySetKey_same _ _ _
    have hri : pyGet "run_id"
        (pySetKey "fetched_at" (.str nowIso)
          (pySetKey "run_id" (.str (effectiveRunId run_id nowFmt))
            (flatten_summary (recNow ip.1) ip.2))) =
        some (.str (effectiveRunId run_id nowFmt)) := by
      rw [pyGet_pySetKey_other _ _ _ _ (by decide)]
      exact pyGet_pySetKey_same _ _ _
    simp [SQLITE_COLUMNS, SUMMARY_KEYS, rowLookup, hfa, hri]

theorem save_sqlite_uniform_stamps_witness :
    sqliteRowOf (effectiveRunId (some "r") "F") "T" "t" [("kills", .num 1)] ∈
      save_sqlite [[("kills", .num 1)]] (some "r") "T" "F" (fun _ => "t") [] ∧
    rowLookup "fetched_at"
      (sqliteRowOf (effectiveRunId (some "r") "F") "T" "t" [("kills", .num 1)]) =
      some (some (.str "T")) ∧
    rowLookup "run_id"
      (sqliteRowOf (effectiveRunId (some "r") "F") "T" "t" [("kills", .num 1)]) =
      some (some (.str (effectiveRunId (some "r") "F"))) := by
  have hmem : sqliteRowOf (effectiveRunId (some "r") "F") "T" "t"
      [("kills", .num 1)] ∈
      save_sqlite [[("kills", .num 1)]] (some "r") "T" "F" (fun _ => "t") [] := by
    rw [save_sqlite]
    decide
  exact ⟨hmem,
    (save_sqlite_uniform_stamps [[("kills", .num 1)]] (some "r") "T" "F"
      (fun _ => "t") _ hmem).1,
    (save_sqlite_uniform_stamps [[("kills", .num 1)]] (some "r") "T" "F"
      (fun _ => "t") _ hmem).2⟩

lemma addNewKeys_eq_insKeys (acc : List String) (s : Dict) :
    addNewKeys acc s = insKeys acc (s.map Prod.fst) := by
  rw [addNewKeys, insKeys, List.foldl_map]

lemma insKeys_of_nodup (ks : List String) (hnd : ks.Nodup) :
    ∀ acc, insKeys acc ks = dedupAppend acc ks := by
  induction ks with
  | nil => intro acc; simp [insKeys, dedupAppend]
  | cons k ks ih =>
    intro acc
    have hk : k ∉ ks := (List.nodup_cons.mp hnd).1
    have hnd' : ks.Nodup := (List.nodup_cons.mp hnd).2
    by_cases hmem : k ∈ acc
    · rw [insKeys, List.foldl_cons, if_pos hmem]
      rw [show List.foldl (fun a k => if k ∈ a then a else a ++ [k]) acc ks =
        insKeys acc ks from rfl, ih hnd' acc]
      rw [dedupAppend, dedupAppend, List.filter_cons]
      simp [hmem]
    · rw [insKeys, List.foldl_cons, if_neg hmem]
      rw [show List.foldl (fun a k => if k ∈ a then a else a ++ [k])
        (acc ++ [k]) ks = insKeys (acc ++ [k]) ks from rfl, ih hnd' (acc ++ [k])]
      rw [dedupAppend, dedupAppend, List.filter_cons]
      have hfilter : ks.filter (fun x => decide (x ∉ acc ++ [k])) =
          ks.filter (fun x => decide (x ∉ acc)) := by
        apply List.filter_congr
        intro x hx
        have hxk : x ≠ k := fun hh => hk (hh ▸ hx)
        simp [List.mem_append, hxk]
      rw [hfilter]
      simp [hmem, List.append_assoc]

lemma flatten_summary_keys (t : String) (r : Dict) :
    (flatten_summary t r).map Prod.fst = "fetched_at" :: presentKeys r := by
  rw [flatten_summary, presentKeys, List.map_cons]
  congr 1
  induction SUMMARY_KEYS with
  | nil => rfl
  | cons k ks ih =>
    rw [List.filterMap_cons, List.filter_cons]
    cases hks : pyGet k r with
    | none => simpa [hks] using ih
    | some v => simpa [hks] using ih

lemma nodup_flatten_keys (t : String) (r : Dict) :
    (("fetched_at" :: presentKeys r) : List String).Nodup := by
  rw [List.nodup_cons]
  constructor
  · intro hmem
    have : "fetched_at" ∈ SUMMARY_KEYS := List.mem_of_mem_filter hmem
    revert this
    decide
  · exact List.Nodup.filter _ (by decide)

lemma nodup_presentKeys (r : Dict) : (presentKeys r).Nodup :=
  List.Nodup.filter _ (by decide)

lemma summary_keys_ne_fetched : ∀ y ∈ SUMMARY_KEYS, y ≠ "fetched_at" := by
  decide

lemma presentKeys_ne_fetched (r : Dict) :
    ∀ x ∈ presentKeys r, x ≠ "fetched_at" := fun x hx =>
  summary_keys_ne_fetched x (List.mem_of_mem_filter hx)

lemma addNewKeys_flatten (A : List String) (t : String) (r : Dict) :
    addNewKeys ("fetched_at" :: A) (flatten_summary t r) =
      "fetched_at" :: dedupAppend A (presentKeys r) := by
  rw [addNewKeys_eq_insKeys, flatten_summary_keys]
  rw [insKeys, List.foldl_cons,
    if_pos (by simp : "fetched_at" ∈ "fetched_at" :: A)]
  rw [show List.foldl (fun a k => if k ∈ a then a else a ++ [k])
    ("fetched_at" :: A) (presentKeys r) =
    insKeys ("fetched_at" :: A) (presentKeys r) from rfl]
  rw [insKeys_of_nodup (presentKeys r) (nodup_presentKeys r) ("fetched_at" :: A)]
  rw [dedupAppend, dedupAppend]
  have hfilter : (presentKeys r).filter (fun x => decide (x ∉ "fetched_at" :: A)) =
      (presentKeys r).filter (fun x => decide (x ∉ A)) := by
    apply List.filter_congr
    intro x hx
    have hne : x ≠ "fetched_at" := presentKeys_ne_fetched r x hx
    simp [List.mem_cons, hne]
  rw [hfilter]
  rfl

lemma foldl_addNewKeys_flatten (l : List (String × Dict)) :
    ∀ A : List String,
    (l.map (fun tr => flatten_summary tr.1 tr.2)).foldl addNewKeys
        ("fetched_at" :: A) =
      "fetched_at" ::
        l.foldl (fun acc tr => dedupAppend acc (presentKeys tr.2)) A := by
  induction l with
  | nil => intro A; rfl
  | cons tr l ih =>
    intro A
    rw [List.map_cons, List.foldl_cons, addNewKeys_flatten, List.foldl_cons]
    exact ih _

lemma foldl_enumFrom_snd {α β : Type} (g : β → α → β) (xs : List α) :
    ∀ (n : Nat) (a : β),
      (List.enumFrom n xs).foldl (fun acc p => g acc p.2) a = xs.foldl g a := by
  induction xs with
  | nil => intro n a; rfl
  | cons x xs ih =>
    intro n a
    rw [List.enumFrom_cons, List.foldl_cons, List.foldl_cons]
    exact ih (n + 1) (g a x)

lemma all_summary_keys_eq_specHeader (recNow : Nat → String)
    (records : List Dict) (h : records ≠ []) :
    all_summary_keys
        (records.enum.map (fun ip => flatten_summary (recNow ip.1) ip.2)) =
      specHeader records := by
  obtain ⟨r, rest, rfl⟩ := List.exists_cons_of_ne_nil h
  rw [List.enum_cons]
  rw [List.map_cons, all_summary_keys, flatten_summary_keys]
  have hmaps : (List.enumFrom 1 rest).map (fun ip => flatten_summary (recNow ip.1) ip.2) =
      ((List.enumFrom 1 rest).map (fun ip => ((recNow ip.1, ip.2) : String × Dict))).map
        (fun tr => flatten_summary tr.1 tr.2) := by
    rw [List.map_map]
    rfl
  rw [hmaps, foldl_addNewKeys_flatten]
  rw [List.foldl_map]
  rw [foldl_enumFrom_snd (fun acc rr => dedupAppend acc (presentKeys rr)) rest 1]
  rw [specHeader, List.foldl_cons]
  have hinit : dedupAppend [] (presentKeys r) = presentKeys r := by
    rw [dedupAppend]
    simp
  rw [hinit]

/-- C7: save_csv fails on an empty result list; otherwise the header is
fetched_at first, then the union of the allow-list keys present across
the flattened summaries in first-seen order (the first record's present
keys in allow-list order, then new keys of later records), and there is
one data row per record whose cells render missing values as the empty
string. -/
theorem save_csv_correct (recNow : Nat → String) (records : List Dict)
    (h : records ≠ []) :
    save_csv recNow records =
      .ok (specHeader records,
        records.enum.map (fun ip =>
          (specHeader records).map (fun k =>
            csvCell (pyGet k (flatten_summary (recNow ip.1) ip.2)))))
    ∧ (records.enum.map (fun ip =>
        (specHeader records).map (fun k =>
          csvCell (pyGet k (flatten_summary (recNow ip.1) ip.2))))).length =
        records.length
    ∧ csvCell none = ""
    ∧ (∀ rn : Nat → String, save_csv rn [] = .error ()) := by
  have hne : ¬ records.isEmpty = true := fun hh => h (List.isEmpty_iff.mp hh)
  refine ⟨?_, by simp [List.enum_length], rfl, fun rn => rfl⟩
  simp only [save_csv, if_neg hne]
  rw [all_summary_keys_eq_specHeader recNow records h]
  rw [List.map_map]
  rfl

lemma mem_firstSeenAux (x : String) (l : List String) :
    ∀ seen, x ∈ firstSeenAux seen l ↔ x ∈ l ∧ x ∉ seen := by
  induction l with
  | nil => intro seen; simp [firstSeenAux]
  | cons y l ih =>
    intro seen
    by_cases hy : y ∈ seen
    · rw [firstSeenAux, if_pos hy, ih seen]
      constructor
      · rintro ⟨hxl, hxs⟩
        exact ⟨List.mem_cons_of_mem y hxl, hxs⟩
      · rintro ⟨hxl, hxs⟩
        rcases List.mem_cons.mp hxl with rfl | hxl
        · exact absurd hy hxs
        · exact ⟨hxl, hxs⟩
    · rw [firstSeenAux, if_neg hy, List.mem_cons, ih (seen ++ [y])]
      constructor
      · rintro (rfl | ⟨hxl, hxs⟩)
        · exact ⟨List.mem_cons_self x l, hy⟩
        · refine ⟨List.mem_cons_of_mem y hxl, fun hh => hxs ?_⟩
          exact List.mem_append_left [y] hh
      · rintro ⟨hxl, hxs⟩
        rcases List.mem_cons.mp hxl with rfl | hxl
        · exact Or.inl rfl
        · by_cases hxy : x = y
          · exact Or.inl hxy
          · refine Or.inr ⟨hxl, fun hh => ?_⟩
            rcases List.mem_append.mp hh with hh | hh
            · exact hxs hh
            · exact hxy (List.mem_singleton.mp hh)

lemma mem_firstSeen (x : String) (l : List String) :
    x ∈ firstSeen l ↔ x ∈ l := by
  rw [firstSeen, mem_firstSeenAux]
  simp

lemma nodup_firstSeenAux (l : List String) :
    ∀ seen, (firstSeenAux seen l).Nodup := by
  induction l with
  | nil => intro seen; simp [firstSeenAux]
  | cons y l ih =>
    intro seen
    by_cases hy : y ∈ seen
    · rw [firstSeenAux, if_pos hy]
      exact ih seen
    · rw [firstSeenAux, if_neg hy, List.nodup_cons]
      refine ⟨fun hh => ?_, ih (seen ++ [y])⟩
      exact ((mem_firstSeenAux y l (seen ++ [y])).mp hh).2
        (List.mem_append_right seen (List.mem_singleton.mpr rfl))

lemma nodup_firstSeen (l : List String) : (firstSeen l).Nodup :=
  nodup_firstSeenAux l []

lemma firstSeenAux_append (x : String) (L : List String) :
    ∀ seen, firstSeenAux seen (L ++ [x]) =
      if x ∈ seen ∨ x ∈ L then firstSeenAux seen L
      else firstSeenAux seen L ++ [x] := by
  induction L with
  | nil =>
    intro seen
    by_cases hx : x ∈ seen
    · simp [firstSeenAux, hx]
    · simp [firstSeenAux, hx]
  | cons y L ih =>
    intro seen
    by_cases hy : y ∈ seen
    · rw [List.cons_append, firstSeenAux, if_pos hy, ih seen,
        firstSeenAux, if_pos hy]
      by_cases hx : x ∈ seen ∨ x ∈ L
      · rw [if_pos hx, if_pos]
        rcases hx with hx | hx
        · exact Or.inl hx
        · exact Or.inr (List.mem_cons_of_mem y hx)
      · rw [if_neg hx, if_neg]
        intro hh
        rcases hh with hh | hh
        · exact hx (Or.inl hh)
        · rcases List.mem_cons.mp hh with rfl | hh
          · exact hx (Or.inl hy)
          · exact hx (Or.inr hh)
    · rw [List.cons_append, firstSeenAux, if_neg hy, ih (seen ++ [y]),
        firstSeenAux, if_neg hy]
      by_cases hx : x ∈ seen ++ [y] ∨ x ∈ L
      · rw [if_pos hx, if_pos]
        rcases hx with hx | hx
        · rcases List.mem_append.mp hx with hx | hx
          · exact Or.inl hx
          · exact Or.inr (List.mem_cons.mpr (Or.inl (List.mem_singleton.mp hx)))
        · exact Or.inr (List.mem_cons_of_mem y hx)
      · rw [if_neg hx, if_neg]
        · rw [List.cons_append]
        · intro hh
          rcases hh with hh | hh
          · exact hx (Or.inl (List.mem_append_left [y] hh))
          · rcases List.mem_cons.mp hh with rfl | hh
            · exact hx (Or.inl (List.mem_append_right seen (List.mem_singleton.mpr rfl)))
            · exact hx (Or.inr hh)

lemma firstSeen_append (L : List String) (x : String) :
    firstSeen (L ++ [x]) =
      if x ∈ L then firstSeen L else firstSeen L ++ [x] := by
  rw [firstSeen, firstSeenAux_append x L []]
  simp [firstSeen]

lemma valuesFor_append (q pl v : String) (xs : List (String × String)) :
    valuesFor q (xs ++ [(pl, v)]) =
      if pl = q then valuesFor q xs ++ [v] else valuesFor q xs := by
  rw [valuesFor, List.filter_append]
  by_cases h : pl = q
  · rw [if_pos h]
    simp [valuesFor, List.filter, h]
  · rw [if_neg h]
    have : List.filter (fun pr => pr.1 == q) [(pl, v)] = [] := by
      simp [List.filter_cons, h]
    rw [this, List.append_nil, valuesFor]

lemma valuesFor_not_mem (pl : String) (xs : List (String × String))
    (h : pl ∉ xs.map Prod.fst) : valuesFor pl xs = [] := by
  rw [valuesFor]
  have : xs.filter (fun pr => pr.1 == pl) = [] := by
    rw [List.filter_eq_nil]
    intro pr hpr
    intro hb
    exact h (List.mem_map.mpr ⟨pr, hpr, beq_iff_eq.mp hb⟩)
  rw [this]
  rfl

lemma setdefaultAppend_map (L : List String) (F : String → List String)
    (pl v : String) (hnd : L.Nodup) :
    setdefaultAppend (L.map (fun q => (q, F q))) pl v =
      if pl ∈ L then
        L.map (fun q => (q, if q = pl then F q ++ [v] else F q))
      else L.map (fun q => (q, F q)) ++ [(pl, [v])] := by
  induction L with
  | nil => simp [setdefaultAppend]
  | cons q L ih =>
    have hqL : q ∉ L := (List.nodup_cons.mp hnd).1
    have hndL : L.Nodup := (List.nodup_cons.mp hnd).2
    rw [List.map_cons, setdefaultAppend]
    by_cases hq : q = pl
    · subst hq
      rw [if_pos rfl, if_pos (List.mem_cons_self q L), List.map_cons,
        if_pos rfl]
      congr 1
      apply List.map_congr_left
      intro x hx
      have : x ≠ q := fun hh => hqL (hh ▸ hx)
      rw [if_neg this]
    · rw [if_neg hq, ih hndL]
      by_cases hpl : pl ∈ L
      · rw [if_pos hpl, if_pos (List.mem_cons_of_mem q hpl), List.map_cons,
          if_neg hq]
      · rw [if_neg hpl, if_neg (fun hh => by
          rcases List.mem_cons.mp hh with hh | hh
          · exact hq hh.symm
          · exact hpl hh)]
        simp

lemma setdefaultAppend_grouped (xs : List (String × String)) (pl v : String) :
    setdefaultAppend (groupedPairs xs) pl v =
      groupedPairs (xs ++ [(pl, v)]) := by
  rw [groupedPairs, groupedPairs, List.map_append, List.map_cons, List.map_nil]
  rw [firstSeen_append]
  rw [setdefaultAppend_map (firstSeen (xs.map Prod.fst))
    (fun q => valuesFor q xs) pl v (nodup_firstSeen _)]
  by_cases hm : pl ∈ xs.map Prod.fst
  · rw [if_pos hm, if_pos ((mem_firstSeen pl _).mpr hm)]
    apply List.map_congr_left
    intro q hq
    rw [valuesFor_append]
    by_cases hqpl : q = pl
    · rw [if_pos hqpl, if_pos hqpl.symm]
    · rw [if_neg hqpl, if_neg (fun hh => hqpl hh.symm)]
  · rw [if_neg hm, if_neg (fun hh => hm ((mem_firstSeen pl _).mp hh)),
      List.map_append, List.map_cons, List.map_nil]
    congr 1
    · apply List.map_congr_left
      intro q hq
      rw [valuesFor_append]
      have hqpl : q ≠ pl := fun hh =>
        hm (hh ▸ (mem_firstSeen q _).mp hq)
      rw [if_neg (fun hh => hqpl hh.symm)]
    · rw [valuesFor_append, if_pos rfl, valuesFor_not_mem pl xs hm,
        List.nil_append]

lemma foldl_setdefaultAppend (pairs : List (String × String)) :
    pairs.foldl (fun g q => setdefaultAppend g q.1 q.2) [] =
      groupedPairs pairs := by
  induction pairs using List.reverseRecOn with
  | nil => rfl
  | append_singleton xs q ih =>
    rw [List.foldl_append, List.foldl_cons, List.foldl_nil, ih]
    obtain ⟨pl, v⟩ := q
    exact setdefaultAppend_grouped xs pl v

lemma singleLoop_char (oracle : Oracle) (ps : List PlayerDesc)
    (hnames : ∀ p ∈ ps, p.name ≠ "") :
    ∀ (k : Nat) (tr : List ApiCall) (res : List Json),
      singleLoop oracle ps k tr res =
        (tr ++ ps.map (fun p => .statsCall (statsParams p)),
          .ok (res ++ fetchedStats oracle k ps)) := by
  induction ps with
  | nil => intro k tr res; simp [singleLoop, fetchedStats]
  | cons p ps ih =>
    intro k tr res
    have hn : ¬ p.name = "" := hnames p (List.mem_cons_self p ps)
    have hih := ih (fun x hx => hnames x (List.mem_cons_of_mem p hx))
    rw [singleLoop, get_stats_params, if_neg hn]
    rw [show (Except.ok [("platform", p.platform), ("name", p.name)] :
      Except Unit (List (String × String))) = Except.ok (statsParams p) from rfl]
    cases ho : oracle k (.statsCall (statsParams p)) with
    | ok j =>
      simp only [ho, fetchedStats]
      rw [hih]
      simp [List.append_assoc]
    | error e =>
      simp only [ho, fetchedStats]
      rw [hih]
      simp [List.append_assoc]

lemma resolveLoop_char (oracle : Oracle) (ps : List PlayerDesc) :
    ∀ (k : Nat) (tr : List ApiCall) (groups : List (String × List String)),
      resolveLoop oracle ps k tr groups =
        (k + ps.length,
          tr ++ ps.map (fun p => .resolveCall p.name p.platform),
          (resolvedPairs oracle k ps).foldl
            (fun g q => setdefaultAppend g q.1 q.2) groups) := by
  induction ps with
  | nil => intro k tr groups; simp [resolveLoop, resolvedPairs]
  | cons p ps ih =>
    intro k tr groups
    rw [resolveLoop]
    cases ho : get_player_id p.name p.platform
        (oracle k (.resolveCall p.name p.platform)) with
    | ok info =>
      simp only [ho, resolvedPairs]
      rw [ih]
      simp only [List.foldl_cons]
      have harith : k + 1 + ps.length = k + (ps.length + 1) := by omega
      simp [harith]
    | error e =>
      simp only [ho, resolvedPairs]
      rw [ih]
      have harith : k + 1 + ps.length = k + (ps.length + 1) := by omega
      simp [harith]

lemma chunksOfFuel_sound (n : Nat) (hn : n ≠ 0) :
    ∀ (fuel : Nat) (l : List String), l.length ≤ fuel →
      (chunksOfFuel n fuel l).flatten = l ∧
      ∀ c ∈ chunksOfFuel n fuel l, c ≠ [] ∧ c.length ≤ n := by
  intro fuel
  induction fuel with
  | zero =>
    intro l hl
    rw [List.length_eq_zero.mp (Nat.le_zero.mp hl)]
    simp [chunksOfFuel]
  | succ fuel ih =>
    intro l hl
    cases l with
    | nil => simp [chunksOfFuel]
    | cons x xs =>
      rw [chunksOfFuel]
      have hdrop : ((x :: xs).drop n).length ≤ fuel := by
        rw [List.length_drop, List.length_cons]
        rw [List.length_cons] at hl
        omega
      obtain ⟨hjoin, hmem⟩ := ih ((x :: xs).drop n) hdrop
      constructor
      · rw [List.flatten_cons, hjoin, List.take_append_drop]
      · intro c hc
        rcases List.mem_cons.mp hc with rfl | hc
        · constructor
          · cases hn' : n with
            | zero => exact absurd hn' hn
            | succ m => simp [List.take]
          · exact List.length_take_le n (x :: xs)
        · exact hmem c hc

lemma chunksOf_sound (l : List String) :
    (chunksOf 128 l).flatten = l ∧
    ∀ c ∈ chunksOf 128 l, c ≠ [] ∧ c.length ≤ 128 :=
  chunksOfFuel_sound 128 (by decide) l.length l (Nat.le_refl _)

/-- Helper: a non-empty chunk of at most 128 ids with a list-shaped
response comes back unchanged from get_stats_batch. -/
lemma get_stats_batch_list (ids : List String) (pl : String) (xs : List Json)
    (hne : ids ≠ []) (hlen : ids.length ≤ 128) :
    get_stats_batch ids pl (.ok (.arr xs)) = ⟨true, .ok (.arr xs)⟩ := by
  have hne' : ¬ ids.isEmpty = true := fun hh => hne (List.isEmpty_iff.mp hh)
  simp [get_stats_batch, hne', Nat.not_lt.mpr hlen]

lemma chunkLoop_char (oracle : Oracle) (pl : String) (stat : String → Json)
    (hb : ∀ (k : Nat) (ids : List String),
      oracle k (.batchCall ids pl) = .ok (.arr (ids.map stat)))
    (cs : List (List String)) :
    ∀ (k : Nat) (tr : List ApiCall) (res : List Json),
      (∀ c ∈ cs, c ≠ [] ∧ c.length ≤ 128) →
      chunkLoop oracle pl cs k tr res =
        (k + cs.length, tr ++ cs.map (fun c => .batchCall c pl),
          .ok (res ++ cs.flatten.map stat)) := by
  induction cs with
  | nil => intro k tr res _; simp [chunkLoop]
  | cons c cs ih =>
    intro k tr res hcs
    obtain ⟨hcne, hclen⟩ := hcs c (List.mem_cons_self c cs)
    rw [chunkLoop]
    rw [hb k c, get_stats_batch_list c pl (c.map stat) hcne hclen]
    simp only [pyExtendElems, if_true]
    rw [ih (k + 1) (tr ++ [ApiCall.batchCall c pl]) (res ++ c.map stat)
      (fun x hx => hcs x (List.mem_cons_of_mem c hx))]
    simp only [List.flatten_cons, List.length_cons, List.map_cons,
      List.map_append, List.append_assoc]
    have harith : k + 1 + cs.length = k + (cs.length + 1) := by omega
    simp [harith]

lemma batchLoop_char (oracle : Oracle) (stat : String → Json)
    (hb : ∀ (k : Nat) (ids : List String) (pl : String),
      oracle k (.batchCall ids pl) = .ok (.arr (ids.map stat)))
    (groups : List (String × List String)) :
    ∀ (k : Nat) (tr : List ApiCall) (res : List Json),
      batchLoop oracle groups k tr res =
        (tr ++ (groups.map (fun g =>
            (chunksOf 128 g.2).map (fun c => ApiCall.batchCall c g.1))).flatten,
          .ok (res ++ (groups.map (fun g => g.2.map stat)).flatten)) := by
  induction groups with
  | nil => intro k tr res; simp [batchLoop]
  | cons g groups ih =>
    intro k tr res
    obtain ⟨pl, ids⟩ := g
    rw [batchLoop]
    rw [chunkLoop_char oracle pl stat (fun k ids => hb k ids pl)
      (chunksOf 128 ids) k tr res (chunksOf_sound ids).2]
    rw [(chunksOf_sound ids).1]
    simp only []
    rw [ih]
    simp [List.flatten_cons, List.append_assoc]

/-- Characterisation of a batch-mode run whose batch requests all succeed
with list-shaped bodies: the trace is the resolutions followed by the
chunked batch calls per platform group, and the results concatenate the
per-group stats. -/
lemma run_pipeline_batch_char (players : List PlayerDesc) (oracle : Oracle)
    (stat : String → Json) (hlen : 1 < players.length)
    (hb : ∀ (k : Nat) (ids : List String) (pl : String),
      oracle k (.batchCall ids pl) = .ok (.arr (ids.map stat))) :
    run_pipeline players true oracle =
      (players.map (fun p => .resolveCall p.name p.platform) ++
        ((groupedPairs (resolvedPairs oracle 0 players)).map (fun g =>
          (chunksOf 128 g.2).map (fun c => ApiCall.batchCall c g.1))).flatten,
        .ok (((groupedPairs (resolvedPairs oracle 0 players)).map
          (fun g => g.2.map stat)).flatten)) := by
  rw [run_pipeline, if_pos ⟨rfl, hlen⟩]
  simp only [resolveLoop_char oracle players 0 [] []]
  rw [batchLoop_char oracle stat hb]
  rw [foldl_setdefaultAppend]
  simp

lemma resolvedPairs_all_ok (oracle : Oracle) (pid : Nat → String)
    (ps : List PlayerDesc) :
    ∀ k : Nat,
      (∀ (i : Nat) (hi : i < ps.length),
        oracle (k + i) (.resolveCall (ps.get ⟨i, hi⟩).name
          (ps.get ⟨i, hi⟩).platform) = .ok (.obj [("id", .str (pid (k + i)))])) →
      resolvedPairs oracle k ps = allPids pid k ps := by
  induction ps with
  | nil => intro k _; rfl
  | cons p ps ih =>
    intro k hres
    have h0 := hres 0 (by simp)
    rw [show k + 0 = k from rfl] at h0
    rw [show (p :: ps).get ⟨0, by simp⟩ = p from rfl] at h0
    rw [resolvedPairs, h0]
    rw [show (match get_player_id p.name p.platform
        (.ok (.obj [("id", .str (pid k))])) with
      | Except.ok info =>
        (p.platform, pidStr info) :: resolvedPairs oracle (k + 1) ps
      | Except.error _ => resolvedPairs oracle (k + 1) ps) =
      (p.platform, pid k) :: resolvedPairs oracle (k + 1) ps from rfl]
    rw [allPids]
    congr 1
    apply ih (k + 1)
    intro i hi
    have h := hres (i + 1) (by simpa using Nat.succ_lt_succ hi)
    rw [show k + (i + 1) = k + 1 + i by omega] at h
    exact h

/-- C1 (amended): with batching disabled or at most one player, a failed
per-player stats fetch is recovered locally, the player is dropped and
the remaining successes are returned in order without error; in batch
mode a failed per-player resolution is likewise dropped and, as long as
the batch stats requests themselves succeed, the pipeline returns the
grouped results without error.  A failure of a batch stats request
itself, however, propagates (see the counterexample). -/
theorem run_pipeline_local_recovery (players : List PlayerDesc)
    (oracle : Oracle) (hnames : ∀ p ∈ players, p.name ≠ "") :
    (∀ ub : Bool, ub = false ∨ players.length ≤ 1 →
      (run_pipeline players ub oracle).2 = .ok (fetchedStats oracle 0 players))
  ∧ (∀ stat : String → Json, 1 < players.length →
      (∀ (k : Nat) (ids : List String) (pl : String),
        oracle k (.batchCall ids pl) = .ok (.arr (ids.map stat))) →
      (run_pipeline players true oracle).2 =
        .ok (((groupedPairs (resolvedPairs oracle 0 players)).map
          (fun g => g.2.map stat)).flatten)) := by
  constructor
  · intro ub hub
    have hcond : ¬ (ub = true ∧ 1 < players.length) := by
      rcases hub with rfl | hle
      · rintro ⟨h, _⟩
        cases h
      · rintro ⟨_, h⟩
        omega
    rw [run_pipeline, if_neg hcond, singleLoop_char oracle players hnames 0 [] []]
    simp
  · intro stat hlen hb
    rw [run_pipeline_batch_char players oracle stat hlen hb]

theorem run_pipeline_local_recovery_witness :
    (∀ p ∈ ([⟨"a", "pc"⟩, ⟨"b", "pc"⟩] : List PlayerDesc), p.name ≠ "")
  ∧ (run_pipeline [⟨"a", "pc"⟩, ⟨"b", "pc"⟩] false
      (fun k _ => if k = 0 then .error .maxRetriesExceeded
        else .ok (.num 7))).2 = .ok [.num 7]
  ∧ (run_pipeline [⟨"a", "pc"⟩, ⟨"b", "pc"⟩] true
      (fun _ call =>
        match call with
        | .resolveCall n _ =>
          if n = "a" then .ok (.obj [("id", .str "1")])
          else .error (.requestFailed "down")
        | .batchCall ids _ => .ok (.arr (ids.map Json.str))
        | .statsCall _ => .error .maxRetriesExceeded)).2 = .ok [.str "1"] := by
  refine ⟨by decide, ?_, ?_⟩
  · exact (run_pipeline_local_recovery [⟨"a", "pc"⟩, ⟨"b", "pc"⟩]
      (fun k _ => if k = 0 then .error .maxRetriesExceeded else .ok (.num 7))
      (by decide)).1 false (Or.inl rfl)
  · exact (run_pipeline_local_recovery [⟨"a", "pc"⟩, ⟨"b", "pc"⟩]
      (fun _ call =>
        match call with
        | .resolveCall n _ =>
          if n = "a" then .ok (.obj [("id", .str "1")])
          else .error (.requestFailed "down")
        | .batchCall ids _ => .ok (.arr (ids.map Json.str))
        | .statsCall _ => .error .maxRetriesExceeded)
      (by decide)).2 Json.str (by decide) (fun k ids pl => rfl)

theorem run_pipeline_batch_error_cex :
    (run_pipeline [⟨"a", "pc"⟩, ⟨"b", "pc"⟩] true
      (fun _ call =>
        match call with
        | .resolveCall _ _ => .ok (.obj [("id", .str "9")])
        | _ => .error (.requestFailed "net down"))).2 =
      .error (.api (.requestFailed "net down")) := rfl

/-- C5: in batch mode with every resolution succeeding, each platform
group (in first-encounter order) is submitted in consecutive chunks whose
concatenation is exactly the group's resolved ids in input order, every
chunk is non-empty with at most 128 ids, and the results concatenate the
per-group per-id stats in that same order. -/
theorem run_pipeline_batch_chunking (players : List PlayerDesc)
    (oracle : Oracle) (pid : Nat → String) (stat : String → Json)
    (hlen : 1 < players.length)
    (hres : ∀ (i : Nat) (hi : i < players.length),
      oracle i (.resolveCall (players.get ⟨i, hi⟩).name
        (players.get ⟨i, hi⟩).platform) = .ok (.obj [("id", .str (pid i))]))
    (hb : ∀ (k : Nat) (ids : List String) (pl : String),
      oracle k (.batchCall ids pl) = .ok (.arr (ids.map stat))) :
    run_pipeline players true oracle =
      (players.map (fun p => .resolveCall p.name p.platform) ++
        ((groupedPairs (allPids pid 0 players)).map (fun g =>
          (chunksOf 128 g.2).map (fun c => ApiCall.batchCall c g.1))).flatten,
        .ok (((groupedPairs (allPids pid 0 players)).map
          (fun g => g.2.map stat)).flatten))
    ∧ (∀ g ∈ groupedPairs (allPids pid 0 players),
        (chunksOf 128 g.2).flatten = g.2 ∧
        ∀ c ∈ chunksOf 128 g.2, c ≠ [] ∧ c.length ≤ 128) := by
  have hrp : resolvedPairs oracle 0 players = allPids pid 0 players := by
    apply resolvedPairs_all_ok oracle pid players 0
    intro i hi
    have h := hres i hi
    rw [show (0 : Nat) + i = i from Nat.zero_add i]
    exact h
  constructor
  · rw [run_pipeline_batch_char players oracle stat hlen hb, hrp]
  · intro g _hg
    exact ⟨(chunksOf_sound g.2).1, (chunksOf_sound g.2).2⟩

set_option maxRecDepth 100000 in
theorem run_pipeline_batch_chunking_witness :
    1 < playersC5.length
  ∧ run_pipeline playersC5 true oracleC5 =
      (playersC5.map (fun p => ApiCall.resolveCall p.name p.platform) ++
        [.batchCall (idsC5.take 128) "pc",
          .batchCall ((idsC5.drop 128).take 128) "pc",
          .batchCall (idsC5.drop 256) "pc"],
        .ok (idsC5.map Json.str))
  ∧ (idsC5.take 128).length = 128
  ∧ ((idsC5.drop 128).take 128).length = 128
  ∧ (idsC5.drop 256).length = 44 := by
  refine ⟨by decide, ?_, by decide, by decide, by decide⟩
  exact ((run_pipeline_batch_chunking playersC5 oracleC5 toString Json.str
    (by decide) (fun i hi => rfl) (fun k ids pl => rfl)).1).trans (by decide)

theorem save_csv_correct_witness :
    ([[("userName", Json.str "foo"), ("id", Json.num 1),
      ("kills", Json.num 10)]] : List Dict) ≠ []
  ∧ save_csv (fun _ => "2026-01-01T00:00:00Z")
      [[("userName", .str "foo"), ("id", .num 1), ("kills", .num 10)]] =
      .ok (["fetched_at", "userName", "id", "kills"],
        [["2026-01-01T00:00:00Z", "foo", "1", "10"]])
  ∧ save_csv (fun _ => "2026-01-01T00:00:00Z") [] = .error () := by
  refine ⟨by decide, ?_, ?_⟩
  · exact ((save_csv_correct (fun _ => "2026-01-01T00:00:00Z")
      [[("userName", .str "foo"), ("id", .num 1), ("kills", .num 10)]]
      (by decide)).1).trans (by decide)
  · exact (save_csv_correct (fun _ => "2026-01-01T00:00:00Z")
      [[("userName", .str "foo"), ("id", .num 1), ("kills", .num 10)]]
      (by decide)).2.2.2 (fun _ => "2026-01-01T00:00:00Z")
